import Mathlib

/-!
Verification development for the MCP-superserver repository.

Shallow embedding of the subsystems that the checked properties concern:
the governance middleware ("Protocol Omega"), the MCP base-server tool
registry, the Neo4j-backed entity/task/reasoning-chain services, the
Ollama model router, and the Obsidian YAML-frontmatter codec.

Conventions used throughout:
* JavaScript objects used as string-keyed maps become association lists
  with JS `Map.set` / object-assignment semantics (`jsSet`: replace in
  place, else append; `jsGet`: first match).
* Backend I/O (Neo4j transactions, Obsidian file writes, the Ollama
  runtime) is made explicit: each call site takes the outcome of that
  I/O as a parameter (a `Bool` for "did the write commit" or an
  `Except` for a result-or-thrown-error).
* Clock readings are abstract `Nat` instants.  A JavaScript
  `new Date().toISOString()` string is `PVal.jsTime t`; a Neo4j
  `datetime()` temporal value is `PVal.dbTime t`.  The two are distinct
  value kinds, exactly as a Neo4j DateTime property is never equal to a
  JS string.
-/

/-- JS object / Map lookup: first entry with the given key. -/
def jsGet {κ α : Type} [DecidableEq κ] : List (κ × α) → κ → Option α
  | [], _ => none
  | (k, v) :: rest, key => if k = key then some v else jsGet rest key

/-- JS object assignment / Map.set: replace the existing entry in place,
otherwise append a new entry (preserving insertion order). -/
def jsSet {κ α : Type} [DecidableEq κ] : List (κ × α) → κ → α → List (κ × α)
  | [], key, v => [(key, v)]
  | (k, w) :: rest, key, v =>
      if k = key then (key, v) :: rest else (k, w) :: jsSet rest key v

-- ================================================================
-- Protocol Omega governance middleware
-- (src/Docker/mcp-hub/src/middleware/protocol-omega.js)
-- ================================================================

/-- `omegaConfig` in protocol-omega.js. -/
structure OmegaConfig where
  enforceLogging : Bool
  blockOnFailure : Bool
  requireTimestamp : Bool
  requireSource : Bool
  requireAction : Bool
  iso8601Strict : Bool
  validateSchema : Bool
deriving DecidableEq

/-- The default configuration: every knob is true (the two env-driven
knobs default to true unless the variable is the literal "false"). -/
def defaultOmegaConfig : OmegaConfig :=
  ⟨true, true, true, true, true, true, true⟩

/-- A candidate log record.  The four scalar fields are either absent
(JS `undefined`) or strings; the claims only concern records in that
domain, so the `typeof x !== 'string'` branches of `validateLogEntry`
never fire and are not represented.  `data` is likewise always either
absent or an object at the modelled call sites. -/
structure LogEntry where
  timestamp : Option String
  type : Option String
  source : Option String
  action : Option String
deriving DecidableEq

/-- JS falsiness of an optional string field (`!entry.field`):
absent or the empty string. -/
def jsFalsy : Option String → Bool
  | none => true
  | some s => s = ""

/-- Consume exactly `n` decimal digits from the front of a character
list, returning the remainder. -/
def takeDigits : Nat → List Char → Option (List Char)
  | 0, l => some l
  | n + 1, c :: rest => if c.isDigit then takeDigits n rest else none
  | _ + 1, [] => none

/-- Consume one literal character. -/
def takeLit (c : Char) : List Char → Option (List Char)
  | d :: rest => if d = c then some rest else none
  | [] => none

/-- The strict regex of `isValidISO8601`:
`^\d\x7b4\x7d-\d\x7b2\x7d-\d\x7b2\x7dT\d\x7b2\x7d:\d\x7b2\x7d:\d\x7b2\x7d(\.\d\x7b3\x7d)?Z$`. -/
def matchIso (l : List Char) : Bool :=
  match takeDigits 4 l with
  | none => false
  | some l1 =>
    match takeLit '-' l1 with
    | none => false
    | some l2 =>
      match takeDigits 2 l2 with
      | none => false
      | some l3 =>
        match takeLit '-' l3 with
        | none => false
        | some l4 =>
          match takeDigits 2 l4 with
          | none => false
          | some l5 =>
            match takeLit 'T' l5 with
            | none => false
            | some l6 =>
              match takeDigits 2 l6 with
              | none => false
              | some l7 =>
                match takeLit ':' l7 with
                | none => false
                | some l8 =>
                  match takeDigits 2 l8 with
                  | none => false
                  | some l9 =>
                    match takeLit ':' l9 with
                    | none => false
                    | some l10 =>
                      match takeDigits 2 l10 with
                      | none => false
                      | some l11 =>
                        match l11 with
                        | ['Z'] => true
                        | '.' :: l12 =>
                          match takeDigits 3 l12 with
                          | some ['Z'] => true
                          | _ => false
                        | _ => false

/-- `isValidISO8601`.  The `new Date(timestamp)` parseability test is the
JS engine's date parser; it enters the model as the oracle `jsParseable`. -/
def isValidISO8601 (cfg : OmegaConfig) (jsParseable : String → Bool)
    (ts : String) : Bool :=
  if cfg.iso8601Strict then matchIso ts.toList && jsParseable ts else true

/-- `validateLogEntry`: the list of schema errors, in source order. -/
def validateLogEntry (cfg : OmegaConfig) (jsParseable : String → Bool)
    (e : LogEntry) : List String :=
  (if cfg.requireTimestamp ∧ jsFalsy e.timestamp then
      ["Missing required field: timestamp"]
   else
     match e.timestamp with
     | some ts =>
         if ts ≠ "" ∧ ¬ isValidISO8601 cfg jsParseable ts then
           ["Invalid ISO 8601 timestamp format"]
         else []
     | none => [])
  ++ (if cfg.requireSource ∧ jsFalsy e.source then
        ["Missing required field: source"] else [])
  ++ (if cfg.requireAction ∧ jsFalsy e.action then
        ["Missing required field: action"] else [])
  ++ (if jsFalsy e.type then ["Missing required field: type"] else [])

/-- `validateLogFormat`: `(valid, errors)`. -/
def validateLogFormat (cfg : OmegaConfig) (jsParseable : String → Bool)
    (e : LogEntry) : Bool × List String :=
  if cfg.validateSchema then
    let errs := validateLogEntry cfg jsParseable e
    (errs.isEmpty, errs)
  else (true, [])

/-- `preActionCheck`: whether the action is allowed to proceed.
`vaultWritable` is the outcome of ensuring the Obsidian vault directory. -/
def preActionCheck (cfg : OmegaConfig) (vaultWritable : Bool) : Bool :=
  if vaultWritable then true else ¬ cfg.blockOnFailure

/-- The observable outcome of `enforceProtocolOmega`:
`blocked`/`invalidFormat`/`writeFailed` are errors thrown to the caller
(codes OMEGA_BLOCKED / OMEGA_INVALID_FORMAT / the write error);
`notLogged` is the non-enforcing `{success:false, logged:false}` return;
`ok` is `{success:true, logged:true}`. -/
inductive OmegaOutcome where
  | blocked : OmegaOutcome
  | invalidFormat : List String → OmegaOutcome
  | writeFailed : OmegaOutcome
  | notLogged : OmegaOutcome
  | ok : OmegaOutcome
deriving DecidableEq

/-- `enforceProtocolOmega`.  `vaultWritable` feeds the pre-action check
and `writeOk` the `writeLogEntry` call; the surrounding try/catch
rethrows any failure when `enforceLogging` is set and otherwise converts
it to the `notLogged` return value. -/
def enforceProtocolOmega (cfg : OmegaConfig) (vaultWritable writeOk : Bool)
    (jsParseable : String → Bool) (e : LogEntry) : OmegaOutcome :=
  let raw : OmegaOutcome :=
    if ¬ preActionCheck cfg vaultWritable ∧ cfg.blockOnFailure then
      .blocked
    else if ¬ (validateLogFormat cfg jsParseable e).1 then
      .invalidFormat (validateLogFormat cfg jsParseable e).2
    else if ¬ writeOk then .writeFailed
    else .ok
  match raw with
  | .ok => .ok
  | err => if cfg.enforceLogging then err else .notLogged

/-- The log entry `wrappedMcpCall` synthesizes for its pre-action check:
`timestamp = new Date().toISOString()`, `type = 'tool_call'`,
`source = server`, `action = toolName + '_precheck'`. -/
def precheckEntry (nowTs toolName server : String) : LogEntry :=
  ⟨some nowTs, some "tool_call", some server, some (toolName ++ "_precheck")⟩

/-- `wrappedMcpCall`: enforce the pre-check record, then run the tool.
Returns the propagated result together with whether the wrapped tool
function was actually invoked.  `tool` is the tool call's own
result-or-thrown-error; post-action verification catches internally and
never affects the result. -/
def wrappedMcpCall {α : Type} (cfg : OmegaConfig) (vaultWritable writeOk : Bool)
    (jsParseable : String → Bool) (nowTs toolName server : String)
    (tool : Except String α) : Except String α × Bool :=
  match enforceProtocolOmega cfg vaultWritable writeOk jsParseable
      (precheckEntry nowTs toolName server) with
  | .ok => (tool, true)
  | .notLogged => (tool, true)
  | .blocked => (.error "Protocol Omega: Action blocked - logging not available", false)
  | .invalidFormat _ => (.error "Protocol Omega: Invalid log entry format", false)
  | .writeFailed => (.error "log write failed", false)

-- ================================================================
-- MCP base-server tool registry
-- (src/Docker/mcp-hub/src/mcp/base-server.js)
-- ================================================================

/-- `createInputSchema(properties, required)`: a JSON-Schema-like object
descriptor.  Property descriptors are abstracted to their declared type
string; the registry never interprets them. -/
structure InputSchema where
  type : String
  properties : List (String × String)
  required : List String
deriving DecidableEq

/-- `createInputSchema`. -/
def createInputSchema (properties : List (String × String))
    (required : List String) : InputSchema :=
  ⟨"object", properties, required⟩

/-- A registered tool.  Handlers are modelled as functions from the
argument object to a result-or-thrown-error; the result carries the
already-stringified text payload (the `typeof result === 'string'`
branch of `callTool`). -/
structure ToolDef where
  name : String
  description : String
  inputSchema : InputSchema
  handler : List (String × String) → Except String String

/-- `createTool`. -/
def createTool (name description : String) (inputSchema : InputSchema)
    (handler : List (String × String) → Except String String) : ToolDef :=
  ⟨name, description, inputSchema, handler⟩

/-- `registerTool`: throws unless name/description are truthy (schema
and handler are always present in this typed model), then `Map.set`. -/
def registerTool (tools : List (String × ToolDef)) (t : ToolDef) :
    Except String (List (String × ToolDef)) :=
  if t.name = "" ∨ t.description = "" then
    .error "Tool must have name, description, inputSchema, and handler"
  else .ok (jsSet tools t.name t)

/-- The `JSON.stringify(\x7berror, tool\x7d, null, 2)` text of the
error envelope, assuming message and tool name need no JSON escaping
(true at every modelled call site). -/
def errorJson (msg tool : String) : String :=
  "\x7b\n  \"error\": \"" ++ msg ++ "\",\n  \"tool\": \"" ++ tool ++ "\"\n\x7d"

/-- Observable outcome of `callTool`: either an exception propagated to
the caller, or a returned envelope (whose single text-content item and
isError flag are recorded). -/
inductive CallToolOutcome where
  | thrown : String → CallToolOutcome
  | envelope : String → Bool → CallToolOutcome
deriving DecidableEq

/-- `callTool(name, args)`.  The second component records whether the
tool's handler was invoked. -/
def callTool (tools : List (String × ToolDef)) (name : String)
    (args : List (String × String)) : CallToolOutcome × Bool :=
  match jsGet tools name with
  | none => (.thrown ("Tool " ++ name ++ " not found"), false)
  | some t =>
    match t.handler args with
    | .ok r => (.envelope r false, true)
    | .error e => (.envelope (errorJson e name) true, true)

-- ================================================================
-- Graph store and Neo4j entity service
-- (src/Docker/mcp-hub/src/services/neo4j-entities.js,
--  neo4j-relationships.js)
-- ================================================================

/-- A property value stored on a node or returned in a tool response.
`jsTime t` is the ISO-8601 string a JS clock produced at instant `t`
(ISO rendering is injective on instants); `dbTime t` is the Neo4j
`datetime()` temporal value taken at instant `t`.  A temporal value is
never equal to a string, so the two constructors are distinct. -/
inductive PVal where
  | s : String → PVal
  | i : Int → PVal
  | jsTime : Nat → PVal
  | dbTime : Nat → PVal
  | strList : List String → PVal
  | q : ℚ → PVal
  | null : PVal
deriving DecidableEq

/-- The clock instant a temporal-ish value denotes, when it does. -/
def PVal.reading : PVal → Option Nat
  | .jsTime t => some t
  | .dbTime t => some t
  | _ => none

/-- A graph node: a label and an open property map. -/
structure GraphNode where
  label : String
  props : List (String × PVal)
deriving DecidableEq

/-- A directed relationship between two (label, id) endpoints. -/
structure GraphRel where
  fromLabel : String
  fromId : String
  relType : String
  toLabel : String
  toId : String
  props : List (String × PVal)
deriving DecidableEq

/-- The property graph store. -/
structure GraphStore where
  nodes : List GraphNode
  rels : List GraphRel
deriving DecidableEq

/-- Does node `n` match `MATCH (e:label \x7bid: $id\x7d)`? -/
def nodeMatches (n : GraphNode) (label id : String) : Bool :=
  n.label = label ∧ jsGet n.props "id" = some (.s id)

/-- `createEntity(label, properties)`: a plain Cypher CREATE of a node
carrying exactly the supplied properties.  No uniqueness check, no
timestamp injection (and the repository declares no uniqueness
constraints). -/
def createEntity (g : GraphStore) (label : String)
    (properties : List (String × PVal)) : GraphStore :=
  ⟨g.nodes ++ [⟨label, properties⟩], g.rels⟩

/-- `getEntityById(label, id)`: first matching node or null. -/
def getEntityById (g : GraphStore) (label id : String) : Option GraphNode :=
  g.nodes.find? (fun n => nodeMatches n label id)

/-- Apply a Cypher `SET e.k = $k` list left to right. -/
def setProps (props : List (String × PVal)) (upd : List (String × PVal)) :
    List (String × PVal) :=
  upd.foldl (fun p kv => jsSet p kv.1 kv.2) props

/-- `updateEntity(label, id, properties)`: Cypher
`MATCH (e:label \x7bid\x7d) SET <properties>, e.updated_at = datetime() RETURN e`.
All matching nodes are updated; the first row's properties are returned
(`records[0]`), or null when nothing matched.  `dbNow` is the instant at
which the store evaluates `datetime()`. -/
def updateEntity (g : GraphStore) (label id : String)
    (upd : List (String × PVal)) (dbNow : Nat) :
    GraphStore × Option (List (String × PVal)) :=
  let f := fun (props : List (String × PVal)) =>
    jsSet (setProps props upd) "updated_at" (.dbTime dbNow)
  (⟨g.nodes.map (fun n =>
      if nodeMatches n label id then ⟨n.label, f n.props⟩ else n), g.rels⟩,
   (g.nodes.find? (fun n => nodeMatches n label id)).map (fun n => f n.props))

/-- `createRelationship(fromLabel, fromId, type, toLabel, toId, props)`:
matches both endpoints and creates an edge with `created_at = datetime()`;
when an endpoint is missing no row is produced and null is returned.
(The source interpolates extra properties into syntactically invalid
Cypher; callers that pass properties reach that path only under the
failure parameters the handlers already model.) -/
def createRelationship (g : GraphStore) (fromLabel fromId relType toLabel toId : String)
    (props : List (String × PVal)) (dbNow : Nat) : GraphStore × Option GraphRel :=
  if (g.nodes.any (fun n => nodeMatches n fromLabel fromId)) ∧
     (g.nodes.any (fun n => nodeMatches n toLabel toId)) then
    let r : GraphRel :=
      ⟨fromLabel, fromId, relType, toLabel, toId,
       jsSet props "created_at" (.dbTime dbNow)⟩
    (⟨g.nodes, g.rels ++ [r]⟩, some r)
  else (g, none)

/-- The `create_entity` tool of the Neo4j memory server: spreads the id
into the property map and CREATEs; returns `\x7bsuccess:true, ...\x7d`. -/
def createEntityHandler (g : GraphStore) (label id : String)
    (properties : List (String × PVal)) : GraphStore × Bool :=
  (createEntity g label (("id", PVal.s id) :: properties), true)

-- ================================================================
-- Sequential Thinking server
-- (src/Docker/mcp-hub/src/mcp/servers/sequential-thinking-server.js)
-- ================================================================

/-- Chain lifecycle status. -/
inductive ChainStatus where
  | in_progress : ChainStatus
  | completed : ChainStatus
  | failed : ChainStatus
deriving DecidableEq

/-- The status string stored in responses and persisted entities. -/
def ChainStatus.str : ChainStatus → String
  | .in_progress => "in_progress"
  | .completed => "completed"
  | .failed => "failed"

/-- An in-memory reasoning step.  `data` is the free-form step payload
(abstracted to its key set's string rendering is unnecessary: the
handlers only copy it), `confidence` a JS number in [0,1]. -/
structure ReasoningStep where
  id : String
  step_number : Nat
  thought : String
  data : List (String × String)
  step_type : String
  confidence : Option ℚ
  created_at : Nat
deriving DecidableEq

/-- An in-memory reasoning chain, as held in `activeChains`. -/
structure ReasoningChain where
  id : String
  prompt : String
  context : List (String × String)
  goal : Option String
  tags : List String
  steps : List ReasoningStep
  status : ChainStatus
  created_at : Nat
  updated_at : Nat
  branch_from : Option String
  conclusion : Option String
  confidence : Option ℚ
  completed_at : Option Nat
deriving DecidableEq

/-- The `activeChains` map. -/
abbrev ChainMap := List (String × ReasoningChain)

/-- Result of the `start_thinking` tool handler. -/
structure StartThinkingResult where
  success : Bool
  chainId : String
deriving DecidableEq

/-- `start_thinking` handler.  `chainId`/`now` stand for the generated
UUID and the clock; `entityOk`/`relOk` are the outcomes of the Neo4j
`createEntity` and (when branching) `createRelationship` calls, whose
failures are caught and merely logged. -/
def startThinkingHandler (st : ChainMap) (g : GraphStore)
    (entityOk relOk : Bool) (chainId : String) (prompt : String)
    (context : List (String × String)) (goal : Option String)
    (tags : List String) (branchFrom : Option String) (now : Nat) :
    ChainMap × GraphStore × StartThinkingResult :=
  let chain : ReasoningChain :=
    ⟨chainId, prompt, context, goal, tags, [], .in_progress, now, now,
     branchFrom, none, none, none⟩
  let st2 := jsSet st chainId chain
  let g2 :=
    if entityOk then
      let g1 := createEntity g "ReasoningChain"
        [("id", .s chainId), ("prompt", .s prompt),
         ("goal", goal.elim PVal.null PVal.s), ("status", .s "in_progress"),
         ("created_at", .jsTime now)]
      match branchFrom with
      | some parent =>
        if relOk then
          (createRelationship g1 "ReasoningChain" parent "BRANCHED_TO"
            "ReasoningChain" chainId [] now).1
        else g1
      | none => g1
    else g
  (st2, g2, ⟨true, chainId⟩)

/-- Result of the `add_step` tool handler. -/
inductive AddStepResult where
  | notFound : AddStepResult
  | ok : String → Nat → AddStepResult
deriving DecidableEq

/-- `add_step` handler.  Looks the chain up in `activeChains` — this is
the only rejection path; the chain's status is never consulted.  The
step is appended in memory, then persisted (`createEntity` for the
`ReasoningStep`, `createRelationship` for `HAS_STEP`), each persistence
failure caught and logged only. -/
def addStepHandler (st : ChainMap) (g : GraphStore)
    (entityOk relOk : Bool) (chainId thought : String)
    (stepType : String) (confidence : Option ℚ) (stepId : String)
    (now : Nat) : ChainMap × GraphStore × AddStepResult :=
  match jsGet st chainId with
  | none => (st, g, .notFound)
  | some chain =>
    let step : ReasoningStep :=
      ⟨stepId, chain.steps.length + 1, thought, [], stepType, confidence, now⟩
    let chain2 : ReasoningChain :=
      { chain with steps := chain.steps ++ [step], updated_at := now }
    let st2 := jsSet st chainId chain2
    let g2 :=
      if entityOk then
        let g1 := createEntity g "ReasoningStep"
          [("id", .s stepId), ("step_number", .i step.step_number),
           ("thought", .s thought), ("step_type", .s stepType),
           ("confidence", confidence.elim PVal.null PVal.q), ("created_at", .jsTime now)]
        if relOk then
          (createRelationship g1 "ReasoningChain" chainId "HAS_STEP"
            "ReasoningStep" stepId [("order", .i step.step_number)] now).1
        else g1
      else g
    (st2, g2, .ok stepId step.step_number)

/-- Result of the `conclude` tool handler. -/
inductive ConcludeResult where
  | notFound : ConcludeResult
  | ok : String → ConcludeResult   -- carries the resulting status string
deriving DecidableEq

/-- `conclude` handler.  Sets the terminal status in memory; the Neo4j
`updateEntity` is wrapped in try/catch (`updateOk`), and the Obsidian
export is fire-and-forget. -/
def concludeHandler (st : ChainMap) (g : GraphStore) (updateOk : Bool)
    (chainId conclusion : String) (success : Bool)
    (confidence : Option ℚ) (now dbNow : Nat) :
    ChainMap × GraphStore × ConcludeResult :=
  match jsGet st chainId with
  | none => (st, g, .notFound)
  | some chain =>
    let status : ChainStatus := if success then .completed else .failed
    let chain2 : ReasoningChain :=
      { chain with status := status, conclusion := some conclusion,
                   confidence := confidence, completed_at := some now,
                   updated_at := now }
    let st2 := jsSet st chainId chain2
    let g2 :=
      if updateOk then
        (updateEntity g "ReasoningChain" chainId
          [("status", .s status.str), ("conclusion", .s conclusion),
           ("confidence", confidence.elim PVal.null PVal.q), ("completed_at", .jsTime now)] dbNow).1
      else g
    (st2, g2, .ok status.str)

/-- Result of the `branch_chain` tool handler. -/
inductive BranchChainResult where
  | notFound : BranchChainResult
  | ok : String → Nat → BranchChainResult  -- new chain id, stepsCopied
deriving DecidableEq

/-- `branch_chain` handler.  Copies steps `1..atStep` (or all) into a
new in-progress chain tagged `branch`; graph persistence failures are
caught and logged only. -/
def branchChainHandler (st : ChainMap) (g : GraphStore)
    (entityOk relOk : Bool) (chainId : String) (atStep : Option Nat)
    (newChainId : String) (now : Nat) :
    ChainMap × GraphStore × BranchChainResult :=
  match jsGet st chainId with
  | none => (st, g, .notFound)
  | some chain =>
    let stepsToCopy :=
      match atStep with
      | some k =>
        -- JS `atStep ? ... : ...`: an explicit 0 is falsy and copies all
        if k = 0 then chain.steps
        else chain.steps.filter (fun s => s.step_number ≤ k)
      | none => chain.steps
    let newChain : ReasoningChain :=
      ⟨newChainId, chain.prompt, chain.context, chain.goal,
       chain.tags ++ ["branch"], stepsToCopy, .in_progress, now, now,
       some chainId, none, none, none⟩
    let st2 := jsSet st newChainId newChain
    let g2 :=
      if entityOk then
        let g1 := createEntity g "ReasoningChain"
          [("id", .s newChainId), ("prompt", .s chain.prompt),
           ("goal", chain.goal.elim PVal.null PVal.s),
           ("status", .s "in_progress"), ("created_at", .jsTime now)]
        if relOk then
          (createRelationship g1 "ReasoningChain" chainId "BRANCHED_TO"
            "ReasoningChain" newChainId [] now).1
        else g1
      else g
    (st2, g2, .ok newChainId stepsToCopy.length)

/-- `get_chain` response.  Field values are property values because the
cold-hydration path copies raw graph properties into the response. -/
inductive GetChainResult where
  | notFound : GetChainResult
  | found : Option PVal → Option PVal → Option PVal → Option PVal →
      Option PVal → Nat → Option (List ReasoningStep) → GetChainResult
deriving DecidableEq

/-- The `stepCount` of a found response. -/
def GetChainResult.stepCountOf : GetChainResult → Option Nat
  | .notFound => none
  | .found _ _ _ _ _ n _ => some n

/-- The `steps` array of a found response (absent when
`includeSteps = false`). -/
def GetChainResult.stepsOf : GetChainResult → Option (List ReasoningStep)
  | .notFound => none
  | .found _ _ _ _ _ _ s => s

/-- `get_chain` handler.  Falls back to Neo4j when the chain is not in
`activeChains` (`fetchOk` is the outcome of that read); the hydrated
chain always carries `steps = []` — the persisted `HAS_STEP` edges are
never consulted. -/
def getChainHandler (st : ChainMap) (g : GraphStore) (fetchOk : Bool)
    (chainId : String) (includeSteps : Bool) : GetChainResult :=
  match jsGet st chainId with
  | some chain =>
    .found (some (.s chain.prompt)) (chain.goal.map PVal.s)
      (some (.s chain.status.str)) (some (.jsTime chain.created_at))
      (some (.jsTime chain.updated_at)) chain.steps.length
      (if includeSteps then some chain.steps else none)
  | none =>
    if fetchOk then
      match getEntityById g "ReasoningChain" chainId with
      | some entity =>
        .found (jsGet entity.props "prompt") (jsGet entity.props "goal")
          (jsGet entity.props "status") (jsGet entity.props "created_at")
          none 0 (if includeSteps then some [] else none)
      | none => .notFound
    else .notFound

-- ================================================================
-- Task Master server
-- (src/Docker/mcp-hub/src/mcp/servers/neo4j-memory-server.js,
--  task-master section: update_task / complete_task)
-- ================================================================

/-- The optional update fields accepted by `update_task`
(`taskId` is passed separately; absent JS arguments are filtered out of
the update object). -/
structure UpdateTaskArgs where
  title : Option String
  description : Option String
  status : Option String
  priority : Option String
  assignee : Option String
  progress : Option Int
deriving DecidableEq

/-- The update object `update_task` builds: the supplied fields in
schema order, then `updated_at = new Date().toISOString()`, and — when
the new status is `completed` — `completed_at = updated_at` and
`progress = 100` (object assignment, so an already-present progress
entry is overwritten in place). -/
def updateTaskBase (u : UpdateTaskArgs) : List (String × PVal) :=
  (u.title.elim [] (fun v => [("title", PVal.s v)]))
  ++ (u.description.elim [] (fun v => [("description", PVal.s v)]))
  ++ (u.status.elim [] (fun v => [("status", PVal.s v)]))
  ++ (u.priority.elim [] (fun v => [("priority", PVal.s v)]))
  ++ (u.assignee.elim [] (fun v => [("assignee", PVal.s v)]))
  ++ (u.progress.elim [] (fun v => [("progress", PVal.i v)]))

/-- The update object `update_task` passes to `updateEntity` (see
`updateTaskBase` for the supplied-field part). -/
def updateTaskData (u : UpdateTaskArgs) (jsNow : Nat) : List (String × PVal) :=
  let withTime := updateTaskBase u ++ [("updated_at", PVal.jsTime jsNow)]
  if u.status = some "completed" then
    jsSet (jsSet withTime "completed_at" (PVal.jsTime jsNow)) "progress" (PVal.i 100)
  else withTime

/-- Result of `update_task`: the persisted entity's properties, or the
not-found error object. -/
inductive UpdateTaskResult where
  | notFound : UpdateTaskResult
  | ok : List (String × PVal) → UpdateTaskResult
deriving DecidableEq

/-- `update_task` handler.  `jsNow` is the handler's clock reading,
`dbNow` the instant the store evaluates `datetime()` inside
`updateEntity` (which overwrites the handler's `updated_at`). -/
def updateTaskHandler (g : GraphStore) (taskId : String)
    (u : UpdateTaskArgs) (jsNow dbNow : Nat) : GraphStore × UpdateTaskResult :=
  let r := updateEntity g "Task" taskId (updateTaskData u jsNow) dbNow
  match r.2 with
  | none => (g, .notFound)
  | some props => (r.1, .ok props)

/-- Result of `complete_task`. -/
inductive CompleteTaskResult where
  | notFound : CompleteTaskResult
  | ok : CompleteTaskResult
deriving DecidableEq

/-- `complete_task` handler: a fixed update object
`\x7bstatus:'completed', progress:100, completed_at:ts, result, updated_at:ts\x7d`
passed to `updateEntity` (whose `datetime()` again overwrites
`updated_at`).  An absent `result` is stored as null. -/
def completeTaskData (result : Option String) (jsNow : Nat) :
    List (String × PVal) :=
  [("status", .s "completed"), ("progress", .i 100),
   ("completed_at", .jsTime jsNow),
   ("result", result.elim PVal.null PVal.s),
   ("updated_at", .jsTime jsNow)]

def completeTaskHandler (g : GraphStore) (taskId : String)
    (result : Option String) (jsNow dbNow : Nat) :
    GraphStore × CompleteTaskResult :=
  let r := updateEntity g "Task" taskId (completeTaskData result jsNow) dbNow
  match r.2 with
  | none => (g, .notFound)
  | some _ => (r.1, .ok)

-- ================================================================
-- Ollama model router (src/unnamed/part_004)
-- ================================================================

/-- One cached inventory entry (`availableModels`). -/
structure OllamaModelEntry where
  name : String
  size : Int
  modified_at : String
  digest : String
deriving DecidableEq

/-- `modelConfig`: per-task default model names keyed by task-type
string (including the `fallback` key) and the retry bound. -/
structure ModelConfig where
  defaultModels : List (String × String)
  maxRetries : Nat
deriving DecidableEq

/-- The configuration produced by the default environment. -/
def modelConfigDefault : ModelConfig :=
  ⟨[("reasoning", "qwq:latest"), ("coding", "deepseek-coder:latest"),
    ("vision", "llava:latest"), ("chat", "llama3.2:latest"),
    ("embedding", "nomic-embed-text:latest"),
    ("fallback", "llama3.2:latest")], 3⟩

/-- `modelConfig.defaultModels.fallback` (empty when the key is absent,
which the shipped configuration never is). -/
def fallbackModel (cfg : ModelConfig) : String :=
  (jsGet cfg.defaultModels "fallback").getD ""

/-- `getModelForTask`: `defaultModels[taskType] || fallback`
(JS falsy: an absent or empty entry falls back). -/
def getModelForTask (cfg : ModelConfig) (taskType : String) : String :=
  match jsGet cfg.defaultModels taskType with
  | some s => if s = "" then fallbackModel cfg else s
  | none => fallbackModel cfg

/-- `isModelAvailable`: name equality or prefix match against the cached
inventory; any failure to obtain the inventory is caught and yields
false. -/
def isModelAvailable (inv : Except String (List OllamaModelEntry))
    (modelName : String) : Bool :=
  match inv with
  | .error _ => false
  | .ok ms => ms.any (fun m => m.name = modelName ∨ modelName.isPrefixOf m.name)

/-- Substring test used by `isRetryableError` (`String.includes`). -/
def strIncludesAux (needle : List Char) : List Char → Bool
  | [] => needle.isPrefixOf []
  | c :: rest => needle.isPrefixOf (c :: rest) || strIncludesAux needle rest

/-- `hay.toLowerCase().includes(needle)` for an already-lowercase needle. -/
def strIncludesLower (hay needle : String) : Bool :=
  strIncludesAux needle.toList (hay.toList.map Char.toLower)

/-- `isRetryableError`: the message mentions a connection-type failure. -/
def isRetryableError (msg : String) : Bool :=
  ["econnrefused", "etimedout", "econnreset", "timeout", "connection"].any
    (fun m => strIncludesLower msg m)

/-- The fields of a successful Ollama response that `routeRequest`
repackages. -/
structure OllamaResponse where
  response : String
  done : Bool
  prompt_eval_count : Nat
  eval_count : Nat
deriving DecidableEq

/-- `executeWithRetry`: invoke the runtime; retry with exponential
backoff while the attempt number is below `maxRetries` and the error is
retryable.  `runtime k` is the outcome of attempt number `k` (starting
at 0).  Returns the final outcome and the number of attempts made. -/
def executeWithRetry (cfg : ModelConfig)
    (runtime : Nat → Except String OllamaResponse) (retryCount : Nat) :
    Except String OllamaResponse × Nat :=
  match runtime retryCount with
  | .ok r => (.ok r, retryCount + 1)
  | .error e =>
    if h : retryCount < cfg.maxRetries ∧ isRetryableError e then
      executeWithRetry cfg runtime (retryCount + 1)
    else (.error e, retryCount + 1)
termination_by cfg.maxRetries - retryCount
decreasing_by omega

/-- What `routeRequest` did: the model it settled on, the final
result-or-thrown-error, and how many runtime attempts were made. -/
structure RouteOutcome where
  selectedModel : String
  result : Except String OllamaResponse
  attempts : Nat

/-- `routeRequest(taskType, prompt, options)`.  Selection:
`options.model || getModelForTask(taskType)`; if the selected model is
not in the cached inventory, substitute the fallback — whose own
availability is never checked — and invoke the runtime with it.
`runtime model k` is the outcome of attempt `k` against `model`. -/
def routeRequest (cfg : ModelConfig)
    (inv : Except String (List OllamaModelEntry))
    (runtime : String → Nat → Except String OllamaResponse)
    (taskType : String) (optsModel : Option String) : RouteOutcome :=
  let selected0 :=
    match optsModel with
    | some m => if m = "" then getModelForTask cfg taskType else m
    | none => getModelForTask cfg taskType
  let selected :=
    if isModelAvailable inv selected0 then selected0 else fallbackModel cfg
  let r := executeWithRetry cfg (runtime selected) 0
  ⟨selected, r.1, r.2⟩

-- ================================================================
-- Obsidian YAML frontmatter codec (src/unnamed/part_001,
-- ObsidianMemoryServer.formatYamlFrontmatter / parseYamlFrontmatter)
-- ================================================================

/-- A tool whose schema declares `x` required; its handler records that
it ran by returning normally. -/
def c4DemoTool : ToolDef :=
  createTool "t" "d" (createInputSchema [("x", "string")] ["x"]) (fun _ => .ok "ran")

/-- A chain already concluded (terminal status `completed`). -/
def c2TerminalChain : ReasoningChain :=
  ⟨"c1", "p", [], none, [], [], .completed, 0, 0, none, some "done", none, some 0⟩

/-- A store already holding a `(Person, p1)` node. -/
def c3DupStore : GraphStore := ⟨[⟨"Person", [("id", .s "p1")]⟩], []⟩

/-- The input schema `create_entity` registers (`label` and `id` are
declared required, but nothing at dispatch enforces the declaration —
see the C4 theorems). -/
def createEntityToolSchema : InputSchema :=
  createInputSchema
    [("label", "string"), ("id", "string"), ("properties", "object")]
    ["label", "id"]

/-- A graph holding a persisted chain entity, one persisted step, and
the `HAS_STEP` edge linking them. -/
def c10Store : GraphStore :=
  ⟨[⟨"ReasoningChain",
      [("id", .s "x"), ("prompt", .s "q"), ("status", .s "in_progress"),
       ("created_at", .jsTime 1)]⟩,
    ⟨"ReasoningStep", [("id", .s "s1"), ("step_number", .i 1)]⟩],
   [⟨"ReasoningChain", "x", "HAS_STEP", "ReasoningStep", "s1", [("order", .i 1)]⟩]⟩

/-- A live in-progress chain for the C9 witness. -/
def c9Chain : ReasoningChain :=
  ⟨"c9", "why", [], none, [], [], .in_progress, 0, 0, none, none, none, none⟩

/-- A record whose `type` field is missing. -/
def c1BadEntry : LogEntry := ⟨some "2024-01-01T00:00:00Z", none, some "src", some "act"⟩

/-- The first five optional update fields (everything before
`progress`). -/
def updateTaskBase5 (u : UpdateTaskArgs) : List (String × PVal) :=
  (u.title.elim [] (fun v => [("title", PVal.s v)]))
  ++ (u.description.elim [] (fun v => [("description", PVal.s v)]))
  ++ (u.status.elim [] (fun v => [("status", PVal.s v)]))
  ++ (u.priority.elim [] (fun v => [("priority", PVal.s v)]))
  ++ (u.assignee.elim [] (fun v => [("assignee", PVal.s v)]))

/-- A store holding one pending task whose prior `updated_at` was
written by the backend clock at instant 1. -/
def c7Store : GraphStore :=
  ⟨[⟨"Task",
     [("id", .s "t1"), ("status", .s "pending"), ("progress", .i 10),
      ("created_at", .jsTime 0), ("updated_at", .dbTime 1)]⟩], []⟩


-- ================================================================
-- Theorems
-- ================================================================

theorem jsGet_jsSet_self {κ α : Type} [DecidableEq κ] (m : List (κ × α)) (k : κ) (v : α) :
    jsGet (jsSet m k v) k = some v := by
  induction m with
  | nil => simp [jsGet, jsSet]
  | cons e rest ih =>
    by_cases h : e.1 = k
    · simp [jsSet, h, jsGet]
    · simpa [jsSet, h, jsGet] using ih

theorem jsGet_jsSet_other {κ α : Type} [DecidableEq κ] (m : List (κ × α)) (k k2 : κ) (v : α)
    (h : k2 ≠ k) : jsGet (jsSet m k v) k2 = jsGet m k2 := by
  induction m with
  | nil => simp [jsGet, jsSet, Ne.symm h]
  | cons e rest ih =>
    by_cases he : e.1 = k
    · simp [jsSet, he, jsGet, Ne.symm h]
    · simp only [jsSet, he, if_false, jsGet]
      split <;> simp_all [jsGet]

theorem jsGet_append {κ α : Type} [DecidableEq κ] (a b : List (κ × α)) (k : κ) :
    jsGet (a ++ b) k =
      (match jsGet a k with | some v => some v | none => jsGet b k) := by
  induction a with
  | nil => simp [jsGet]
  | cons e rest ih =>
    by_cases h : e.1 = k
    · simp [jsGet, h]
    · simpa [jsGet, h] using ih

theorem jsSet_of_absent {κ α : Type} [DecidableEq κ] (m : List (κ × α)) (k : κ) (v : α)
    (h : jsGet m k = none) : jsSet m k v = m ++ [(k, v)] := by
  induction m with
  | nil => simp [jsSet]
  | cons e rest ih =>
    by_cases he : e.1 = k
    · simp [jsGet, he] at h
    · simp [jsGet, he] at h
      simp [jsSet, he, ih h]

/-- C5 counterexample: with an empty registry, `callTool` throws
`Error('Tool create_entity not found')` to the caller instead of
returning the claimed `isError` envelope, and invokes no handler. -/
theorem C5_unknown_tool_counterexample :
    callTool [] "create_entity" [] =
      (CallToolOutcome.thrown "Tool create_entity not found", false) := rfl

/-- C5 (amended): for every tool name absent from the registry,
`callTool` raises `Error('Tool <name> not found')` to the caller — it
does not return an error envelope — and no handler is invoked. -/
theorem C5_unknown_tool_throws (tools : List (String × ToolDef)) (name : String)
    (args : List (String × String)) (h : jsGet tools name = none) :
    callTool tools name args =
      (CallToolOutcome.thrown ("Tool " ++ name ++ " not found"), false) := by
  simp [callTool, h]

/-- C5 witness: the amended behaviour at the concrete input of the
counterexample. -/
theorem C5_unknown_tool_throws_witness :
    jsGet ([] : List (String × ToolDef)) "x" = none ∧
    callTool [] "x" [] = (CallToolOutcome.thrown ("Tool " ++ "x" ++ " not found"), false) :=
  ⟨rfl, C5_unknown_tool_throws [] "x" [] rfl⟩


/-- C4 counterexample: a registered tool requires argument `x` in its
input schema, yet a call with empty arguments invokes the handler (the
second component is true) and returns its normal envelope — no
validation happens and no `InvalidInput` error is produced. -/
theorem C4_no_validation_counterexample :
    c4DemoTool.inputSchema.required = ["x"] ∧
    callTool [("t", c4DemoTool)] "t" [] = (CallToolOutcome.envelope "ran" false, true) :=
  ⟨rfl, rfl⟩

/-- C4 (amended): `callTool` performs no schema validation: for every
registered tool and every argument object the handler is invoked with
the arguments unchanged; a normal result is wrapped as a success
envelope and a thrown handler error as the uniform error envelope. -/
theorem C4_handler_always_invoked (tools : List (String × ToolDef)) (name : String)
    (args : List (String × String)) (t : ToolDef) (h : jsGet tools name = some t) :
    (callTool tools name args).2 = true ∧
    ((∃ r, t.handler args = .ok r ∧
        (callTool tools name args).1 = CallToolOutcome.envelope r false) ∨
     (∃ e, t.handler args = .error e ∧
        (callTool tools name args).1 = CallToolOutcome.envelope (errorJson e name) true)) := by
  refine ⟨?_, ?_⟩ <;> simp only [callTool, h] <;> cases he : t.handler args <;> simp [he]

/-- C4 witness: the amended behaviour at the counterexample's input. -/
theorem C4_handler_always_invoked_witness :
    jsGet [("t", c4DemoTool)] "t" = some c4DemoTool ∧
    (callTool [("t", c4DemoTool)] "t" []).2 = true :=
  ⟨rfl, (C4_handler_always_invoked [("t", c4DemoTool)] "t" [] c4DemoTool rfl).1⟩


/-- C2 counterexample: `add_step` on a terminal (completed) chain held
in `activeChains` succeeds and appends a step — the chain's status is
never consulted, so the claimed rejection does not happen and the step
list of a terminal chain does change. -/
theorem C2_terminal_add_step_accepted_counterexample :
    c2TerminalChain.status = ChainStatus.completed ∧
    (addStepHandler [("c1", c2TerminalChain)] ⟨[], []⟩ true true
      "c1" "t" "analysis" none "s1" 5).2.2 = AddStepResult.ok "s1" 1 ∧
    (jsGet (addStepHandler [("c1", c2TerminalChain)] ⟨[], []⟩ true true
      "c1" "t" "analysis" none "s1" 5).1 "c1").map (fun c => c.steps.length) =
      some 1 :=
  ⟨rfl, rfl, rfl⟩

/-- C2 (amended): `add_step` is rejected only when the chain id is
absent from `activeChains`; for any chain that is present — terminal or
not — the call succeeds and appends a step numbered `len + 1`, leaving
the status unchanged. -/
theorem C2_add_step_ignores_terminal_status (st : ChainMap) (g : GraphStore)
    (eOk rOk : Bool) (cid thought stepType : String) (conf : Option ℚ)
    (stepId : String) (now : Nat) (c : ReasoningChain)
    (h : jsGet st cid = some c) :
    (addStepHandler st g eOk rOk cid thought stepType conf stepId now).2.2 =
      AddStepResult.ok stepId (c.steps.length + 1) ∧
    ∃ c2, jsGet (addStepHandler st g eOk rOk cid thought stepType conf stepId now).1 cid =
        some c2 ∧
      c2.steps = c.steps ++
        [⟨stepId, c.steps.length + 1, thought, [], stepType, conf, now⟩] ∧
      c2.status = c.status := by
  refine ⟨by simp [addStepHandler, h], ?_⟩
  refine ⟨{ c with
      steps := c.steps ++ [⟨stepId, c.steps.length + 1, thought, [], stepType, conf, now⟩],
      updated_at := now }, ?_, rfl, rfl⟩
  simp [addStepHandler, h, jsGet_jsSet_self]

/-- C2 witness: the amended behaviour at the terminal chain of the
counterexample. -/
theorem C2_add_step_ignores_terminal_status_witness :
    jsGet [("c1", c2TerminalChain)] "c1" = some c2TerminalChain ∧
    (addStepHandler [("c1", c2TerminalChain)] ⟨[], []⟩ true true
      "c1" "t" "analysis" none "s1" 5).2.2 = AddStepResult.ok "s1" 1 :=
  ⟨rfl, (C2_add_step_ignores_terminal_status [("c1", c2TerminalChain)] ⟨[], []⟩
      true true "c1" "t" "analysis" none "s1" 5 c2TerminalChain rfl).1⟩


/-- C3 counterexample: creating `(Person, p1)` when such a node already
exists succeeds — the store ends with two `(Person, p1)` nodes instead
of a `Duplicate` failure — and the freshly stored node carries exactly
the supplied properties, with no `created_at`/`updated_at` written. -/
theorem C3_duplicate_and_no_timestamps_counterexample :
    ((createEntity c3DupStore "Person" [("id", PVal.s "p1")]).nodes.filter
      (fun n => nodeMatches n "Person" "p1")).length = 2 ∧
    (createEntity c3DupStore "Person" [("id", PVal.s "p1")]).nodes =
      [⟨"Person", [("id", PVal.s "p1")]⟩, ⟨"Person", [("id", PVal.s "p1")]⟩] ∧
    (jsGet [(("id" : String), PVal.s "p1")] "created_at" = none) :=
  ⟨rfl, rfl, rfl⟩


/-- C3 (amended): `create_entity` declares `id` required only in its
schema; `create(label, props)` always CREATEs a fresh node carrying
exactly the supplied properties — a second create for an existing
`(label, id)` succeeds and leaves at least two matching nodes, and no
timestamp keys are added unless the caller supplied them. -/
theorem C3_create_always_inserts (g : GraphStore) (label id : String)
    (props : List (String × PVal)) (hid : jsGet props "id" = some (.s id))
    (n : GraphNode) (hn : n ∈ g.nodes) (hm : nodeMatches n label id = true) :
    createEntityToolSchema.required = ["label", "id"] ∧
    2 ≤ ((createEntity g label props).nodes.filter
          (fun m => nodeMatches m label id)).length ∧
    (createEntity g label props).nodes.getLast? = some ⟨label, props⟩ ∧
    ∀ k, jsGet props k = none →
      ((createEntity g label props).nodes.getLast?.map
        (fun m => jsGet m.props k)) = some none := by
  have hnew : nodeMatches ⟨label, props⟩ label id = true := by
    simp [nodeMatches, hid]
  have hlast : (createEntity g label props).nodes.getLast? = some ⟨label, props⟩ := by
    simp [createEntity]
  refine ⟨rfl, ?_, hlast, ?_⟩
  · have hmem : n ∈ g.nodes.filter (fun m => nodeMatches m label id) :=
      List.mem_filter.2 ⟨hn, hm⟩
    have h1 : 1 ≤ (g.nodes.filter (fun m => nodeMatches m label id)).length := by
      cases hfe : g.nodes.filter (fun m => nodeMatches m label id) with
      | nil => rw [hfe] at hmem; simp at hmem
      | cons a l => simp [hfe]
    simp only [createEntity, List.filter_append, List.length_append]
    simp [hnew]
    omega
  · intro k hk
    rw [hlast]
    simp [hk]

/-- C3 witness: the amended statement at the counterexample's store. -/
theorem C3_create_always_inserts_witness :
    jsGet [(("id" : String), PVal.s "p1")] "id" = some (PVal.s "p1") ∧
    nodeMatches ⟨"Person", [("id", PVal.s "p1")]⟩ "Person" "p1" = true ∧
    2 ≤ ((createEntity c3DupStore "Person" [("id", PVal.s "p1")]).nodes.filter
          (fun m => nodeMatches m "Person" "p1")).length :=
  ⟨rfl, by decide,
   (C3_create_always_inserts c3DupStore "Person" "p1" [("id", PVal.s "p1")] rfl
      ⟨"Person", [("id", PVal.s "p1")]⟩ (by simp [c3DupStore]) (by decide)).2.1⟩

/-- C10: for a chain absent from `activeChains` but present in the
graph, `get_chain` hydrates only the chain entity: whatever `HAS_STEP`
edges (and step nodes) the store holds, the response carries the raw
entity properties with `stepCount = 0` and `steps = []`. -/
theorem C10_cold_get_chain_loses_steps (st : ChainMap) (g : GraphStore)
    (cid : String) (entity : GraphNode) (h1 : jsGet st cid = none)
    (h2 : getEntityById g "ReasoningChain" cid = some entity) :
    getChainHandler st g true cid true =
      GetChainResult.found (jsGet entity.props "prompt") (jsGet entity.props "goal")
        (jsGet entity.props "status") (jsGet entity.props "created_at")
        none 0 (some []) ∧
    (getChainHandler st g true cid true).stepCountOf = some 0 ∧
    (getChainHandler st g true cid true).stepsOf = some [] := by
  have he : getChainHandler st g true cid true =
      GetChainResult.found (jsGet entity.props "prompt") (jsGet entity.props "goal")
        (jsGet entity.props "status") (jsGet entity.props "created_at")
        none 0 (some []) := by
    simp [getChainHandler, h1, h2]
  exact ⟨he, by rw [he]; rfl, by rw [he]; rfl⟩


/-- C10 witness: with an empty live cache and a persisted step edge,
the hydrated response still reports zero steps. -/
theorem C10_cold_get_chain_loses_steps_witness :
    jsGet ([] : ChainMap) "x" = none ∧
    (getChainHandler [] c10Store true "x" true).stepCountOf = some 0 :=
  ⟨rfl,
   (C10_cold_get_chain_loses_steps [] c10Store "x"
      ⟨"ReasoningChain",
       [("id", .s "x"), ("prompt", .s "q"), ("status", .s "in_progress"),
        ("created_at", .jsTime 1)]⟩ rfl rfl).2.1⟩

/-- C9: every chain-mutating tool swallows graph-write failures: with
the Neo4j writes failing (`false` outcome parameters), `start_thinking`,
`add_step`, `conclude` and `branch_chain` still return their success
results and still update the in-memory `activeChains`, while the graph
store is left untouched — the two can diverge silently. -/
theorem C9_graph_failures_swallowed (st : ChainMap) (g : GraphStore)
    (cid thought stepType conclusion prompt : String) (conf : Option ℚ)
    (stepId newId : String) (now dbNow : Nat) (succFlag : Bool)
    (context : List (String × String)) (goal : Option String)
    (tags : List String) (branchFrom : Option String) (atStep : Option Nat)
    (c : ReasoningChain) (h : jsGet st cid = some c) :
    (addStepHandler st g false false cid thought stepType conf stepId now =
      (jsSet st cid
        { c with
          steps := c.steps ++
            [⟨stepId, c.steps.length + 1, thought, [], stepType, conf, now⟩],
          updated_at := now }, g,
       AddStepResult.ok stepId (c.steps.length + 1))) ∧
    (concludeHandler st g false cid conclusion succFlag conf now dbNow =
      (jsSet st cid
        { c with
          status := if succFlag then ChainStatus.completed else ChainStatus.failed,
          conclusion := some conclusion, confidence := conf,
          completed_at := some now, updated_at := now }, g,
       ConcludeResult.ok
         (if succFlag then ChainStatus.completed else ChainStatus.failed).str)) ∧
    (startThinkingHandler st g false false newId prompt context goal tags
        branchFrom now =
      (jsSet st newId
        ⟨newId, prompt, context, goal, tags, [], .in_progress, now, now,
         branchFrom, none, none, none⟩, g,
       ⟨true, newId⟩)) ∧
    (branchChainHandler st g false false cid atStep newId now =
      (jsSet st newId
        ⟨newId, c.prompt, c.context, c.goal, c.tags ++ ["branch"],
         (match atStep with
          | some k =>
            if k = 0 then c.steps
            else c.steps.filter (fun s => s.step_number ≤ k)
          | none => c.steps),
         .in_progress, now, now, some cid, none, none, none⟩, g,
       BranchChainResult.ok newId
         (match atStep with
          | some k =>
            if k = 0 then c.steps
            else c.steps.filter (fun s => s.step_number ≤ k)
          | none => c.steps).length)) := by
  refine ⟨?_, ?_, ?_, ?_⟩
  · simp [addStepHandler, h]
  · simp [concludeHandler, h]
  · simp [startThinkingHandler]
  · simp [branchChainHandler, h]


/-- C9 witness: the add-step clause at a concrete state — success is
reported although nothing reached the graph. -/
theorem C9_graph_failures_swallowed_witness :
    jsGet [("c9", c9Chain)] "c9" = some c9Chain ∧
    addStepHandler [("c9", c9Chain)] ⟨[], []⟩ false false "c9" "t" "analysis"
        none "s1" 7 =
      (jsSet [("c9", c9Chain)] "c9"
        { c9Chain with
          steps := c9Chain.steps ++ [⟨"s1", c9Chain.steps.length + 1, "t", [], "analysis", none, 7⟩],
          updated_at := 7 }, ⟨[], []⟩,
       AddStepResult.ok "s1" (c9Chain.steps.length + 1)) :=
  ⟨rfl,
   (C9_graph_failures_swallowed [("c9", c9Chain)] ⟨[], []⟩ "c9" "t" "analysis"
      "conc" "why" none "s1" "n1" 7 8 true [] none [] none none c9Chain rfl).1⟩

theorem validateLogEntry_ne_nil (jsP : String → Bool) (e : LogEntry)
    (hbad : jsFalsy e.timestamp = true ∨ jsFalsy e.type = true ∨
      jsFalsy e.source = true ∨ jsFalsy e.action = true ∨
      ∃ ts, e.timestamp = some ts ∧
        (matchIso ts.toList = false ∨ jsP ts = false)) :
    validateLogEntry defaultOmegaConfig jsP e ≠ [] := by
  intro hnil
  simp only [validateLogEntry, List.append_eq_nil] at hnil
  obtain ⟨⟨⟨h1, h2⟩, h3⟩, h4⟩ := hnil
  rcases hbad with h | h | h | h | ⟨ts, hts, hb⟩
  · rw [if_pos ⟨rfl, h⟩] at h1
    simp at h1
  · rw [if_pos h] at h4
    simp at h4
  · rw [if_pos ⟨rfl, h⟩] at h2
    simp at h2
  · rw [if_pos ⟨rfl, h⟩] at h3
    simp at h3
  · by_cases hts0 : ts = ""
    · rw [if_pos ⟨rfl, by simp [hts, jsFalsy, hts0]⟩] at h1
      simp at h1
    · have hfal : ¬ (defaultOmegaConfig.requireTimestamp = true ∧
          jsFalsy e.timestamp = true) := by
        simp [hts, jsFalsy, hts0]
      rw [if_neg hfal, hts] at h1
      have hinval : isValidISO8601 defaultOmegaConfig jsP ts = false := by
        have hand : (matchIso ts.toList && jsP ts) = false := by
          rcases hb with hb | hb
          · rw [hb, Bool.false_and]
          · rw [hb, Bool.and_false]
        simpa [isValidISO8601, defaultOmegaConfig] using hand
      simp [hts0, hinval] at h1

/-- C1: under the default governance configuration, a candidate log
record missing any of timestamp/type/source/action, or whose timestamp
fails the strict ISO-8601 regex or the date parse, makes
`enforceProtocolOmega` throw OMEGA_INVALID_FORMAT (an `invalidFormat`
outcome with a nonempty error list); consequently a wrapped MCP call
whose synthesized pre-check timestamp is invalid propagates the error
and never executes the wrapped tool function.  The pre-action check is
assumed to pass (a writable vault) — otherwise the pipeline fails
earlier with OMEGA_BLOCKED. -/
theorem C1_invalid_record_blocks_tool (jsP : String → Bool) (writeOk : Bool)
    (e : LogEntry) (nowTs toolName server : String) (tool : Except String Nat)
    (hbad : jsFalsy e.timestamp = true ∨ jsFalsy e.type = true ∨
      jsFalsy e.source = true ∨ jsFalsy e.action = true ∨
      ∃ ts, e.timestamp = some ts ∧
        (matchIso ts.toList = false ∨ jsP ts = false))
    (hts : matchIso nowTs.toList = false ∨ jsP nowTs = false) :
    (∃ errs, errs ≠ [] ∧
      enforceProtocolOmega defaultOmegaConfig true writeOk jsP e =
        OmegaOutcome.invalidFormat errs) ∧
    (wrappedMcpCall defaultOmegaConfig true writeOk jsP nowTs toolName server
      tool).2 = false ∧
    (∃ m, (wrappedMcpCall defaultOmegaConfig true writeOk jsP nowTs toolName
      server tool).1 = Except.error m) := by
  have henf : ∀ e2 : LogEntry, validateLogEntry defaultOmegaConfig jsP e2 ≠ [] →
      enforceProtocolOmega defaultOmegaConfig true writeOk jsP e2 =
        OmegaOutcome.invalidFormat (validateLogEntry defaultOmegaConfig jsP e2) := by
    intro e2 hne
    have hne2 : ¬ (validateLogEntry ⟨true, true, true, true, true, true, true⟩
        jsP e2 = []) := hne
    simp [enforceProtocolOmega, preActionCheck, validateLogFormat,
      defaultOmegaConfig, hne2]
  have hne := validateLogEntry_ne_nil jsP e hbad
  have hne2 := validateLogEntry_ne_nil jsP (precheckEntry nowTs toolName server)
    (Or.inr (Or.inr (Or.inr (Or.inr ⟨nowTs, rfl, hts⟩))))
  have hwrap : wrappedMcpCall defaultOmegaConfig true writeOk jsP nowTs toolName
      server tool =
      (Except.error "Protocol Omega: Invalid log entry format", false) := by
    simp [wrappedMcpCall, henf _ hne2]
  exact ⟨⟨validateLogEntry defaultOmegaConfig jsP e, hne, henf e hne⟩,
    by rw [hwrap], ⟨"Protocol Omega: Invalid log entry format", by rw [hwrap]⟩⟩


/-- C1 witness: a record missing `type` fails governance, and a wrapped
call under an unparseable clock string never runs its tool. -/
theorem C1_invalid_record_blocks_tool_witness :
    jsFalsy c1BadEntry.type = true ∧
    matchIso ("bad".toList) = false ∧
    (wrappedMcpCall defaultOmegaConfig true true (fun _ => true) "bad" "toolX"
      "srv" (Except.ok (0 : Nat))).2 = false :=
  ⟨rfl, rfl,
   (C1_invalid_record_blocks_tool (fun _ => true) true c1BadEntry "bad" "toolX"
      "srv" (Except.ok 0) (Or.inr (Or.inl rfl)) (Or.inl rfl)).2.1⟩

theorem executeWithRetry_error_once (cfg : ModelConfig)
    (runtime : Nat → Except String OllamaResponse) (emsg : String) (k : Nat)
    (hrun : runtime k = .error emsg) (hnr : isRetryableError emsg = false) :
    executeWithRetry cfg runtime k = (.error emsg, k + 1) := by
  rw [executeWithRetry, hrun]
  simp [hnr]

theorem executeWithRetry_error_all (cfg : ModelConfig)
    (runtime : Nat → Except String OllamaResponse) (emsg : String)
    (hrun : ∀ k, runtime k = .error emsg) (hr : isRetryableError emsg = true) :
    ∀ fuel k, cfg.maxRetries - k = fuel → k ≤ cfg.maxRetries →
      executeWithRetry cfg runtime k = (.error emsg, cfg.maxRetries + 1) := by
  intro fuel
  induction fuel with
  | zero =>
    intro k hf hk
    have hek : k = cfg.maxRetries := by omega
    rw [executeWithRetry, hrun k]
    simp [hr, hek]
  | succ n ih =>
    intro k hf hk
    have hlt : k < cfg.maxRetries := by omega
    rw [executeWithRetry, hrun k]
    dsimp only
    rw [dif_pos ⟨hlt, hr⟩]
    exact ih (k + 1) (by omega) (by omega)

/-- C6 counterexample: with neither the primary (`qwq:latest` for class
`reasoning`) nor the fallback (`llama3.2:latest`) in the cached
inventory, `routeRequest` still selects the fallback and invokes the
runtime with it; a `model not found` failure is not retryable, so the
call fails with the runtime's own error after a single attempt — not
with `BackendUnavailable` after `R = 3` retry attempts. -/
theorem C6_both_unavailable_counterexample :
    routeRequest modelConfigDefault (.ok [])
        (fun _ _ => .error "model not found") "reasoning" none =
      ⟨"llama3.2:latest", .error "model not found", 1⟩ ∧
    (1 : Nat) ≠ modelConfigDefault.maxRetries + 1 := by
  have hnr : isRetryableError "model not found" = false := by decide
  have h1 : executeWithRetry modelConfigDefault
      (fun _ => (.error "model not found" : Except String OllamaResponse)) 0 =
      (.error "model not found", 1) :=
    executeWithRetry_error_once _ _ _ 0 rfl hnr
  have hav : isModelAvailable (Except.ok [])
      (getModelForTask modelConfigDefault "reasoning") = false := rfl
  have hfb : fallbackModel modelConfigDefault = "llama3.2:latest" := rfl
  exact ⟨by simp [routeRequest, hav, hfb, h1], by decide⟩

/-- C6 (amended): with `opts.model` unset, the selected model is the
class primary when the primary matches the cached inventory, and the
configured fallback otherwise — the fallback's own availability is
never checked.  The runtime is then invoked with the selected model: a
non-retryable error propagates unchanged after one attempt, while a
persistently retryable (connection-type) error is retried until
`maxRetries`, giving `R + 1` attempts in total; no `BackendUnavailable`
classification exists in this path. -/
theorem C6_routing_and_retry (cfg : ModelConfig) (ms : List OllamaModelEntry)
    (runtime : String → Nat → Except String OllamaResponse) (taskType : String) :
    (isModelAvailable (.ok ms) (getModelForTask cfg taskType) = true →
      (routeRequest cfg (.ok ms) runtime taskType none).selectedModel =
        getModelForTask cfg taskType) ∧
    (isModelAvailable (.ok ms) (getModelForTask cfg taskType) = false →
      (routeRequest cfg (.ok ms) runtime taskType none).selectedModel =
        fallbackModel cfg) ∧
    (∀ emsg, isRetryableError emsg = false →
      runtime ((routeRequest cfg (.ok ms) runtime taskType none).selectedModel) 0 =
        .error emsg →
      (routeRequest cfg (.ok ms) runtime taskType none).result = .error emsg ∧
      (routeRequest cfg (.ok ms) runtime taskType none).attempts = 1) ∧
    (∀ emsg, isRetryableError emsg = true →
      (∀ k, runtime ((routeRequest cfg (.ok ms) runtime taskType none).selectedModel) k =
        .error emsg) →
      (routeRequest cfg (.ok ms) runtime taskType none).result = .error emsg ∧
      (routeRequest cfg (.ok ms) runtime taskType none).attempts = cfg.maxRetries + 1) := by
  have hres : (routeRequest cfg (.ok ms) runtime taskType none).result =
      (executeWithRetry cfg
        (runtime ((routeRequest cfg (.ok ms) runtime taskType none).selectedModel))
        0).1 := rfl
  have hatt : (routeRequest cfg (.ok ms) runtime taskType none).attempts =
      (executeWithRetry cfg
        (runtime ((routeRequest cfg (.ok ms) runtime taskType none).selectedModel))
        0).2 := rfl
  refine ⟨?_, ?_, ?_, ?_⟩
  · intro h
    simp [routeRequest, h]
  · intro h
    simp [routeRequest, h]
  · intro emsg hnr hrun
    have h1 := executeWithRetry_error_once cfg
      (runtime ((routeRequest cfg (.ok ms) runtime taskType none).selectedModel))
      emsg 0 hrun hnr
    exact ⟨by rw [hres, h1], by rw [hatt, h1]⟩
  · intro emsg hr hrun
    have h1 := executeWithRetry_error_all cfg
      (runtime ((routeRequest cfg (.ok ms) runtime taskType none).selectedModel))
      emsg hrun hr cfg.maxRetries 0 (by omega) (by omega)
    exact ⟨by rw [hres, h1], by rw [hatt, h1]⟩

/-- C6 witness: fallback selection at the counterexample's inputs. -/
theorem C6_routing_and_retry_witness :
    isModelAvailable (Except.ok ([] : List OllamaModelEntry))
      (getModelForTask modelConfigDefault "reasoning") = false ∧
    (routeRequest modelConfigDefault (.ok [])
      (fun _ _ => .error "model not found") "reasoning" none).selectedModel =
      fallbackModel modelConfigDefault :=
  ⟨rfl,
   (C6_routing_and_retry modelConfigDefault []
      (fun _ _ => .error "model not found") "reasoning").2.1 rfl⟩

theorem jsGet_setProps (base upd : List (String × PVal)) (k : String) :
    jsGet (setProps base upd) k =
      match jsGet upd.reverse k with
      | some v => some v
      | none => jsGet base k := by
  induction upd generalizing base with
  | nil => simp [setProps, jsGet]
  | cons e rest ih =>
    cases e with
    | mk k1 v1 =>
      show jsGet (setProps (jsSet base k1 v1) rest) k = _
      rw [ih, List.reverse_cons, jsGet_append]
      cases h : jsGet rest.reverse k with
      | some v => simp
      | none =>
        by_cases hk : k1 = k
        · subst hk
          simp [jsGet, jsGet_jsSet_self]
        · simp [jsGet, hk, jsGet_jsSet_other base k1 k v1 (Ne.symm hk)]

theorem jsGet_optSingle {α : Type} (o : Option α) (f : α → PVal)
    (key k : String) (h : key ≠ k) :
    jsGet (o.elim [] (fun v => [(key, f v)])) k = none := by
  cases o <;> simp [jsGet, h]

theorem jsGet_append_none {κ α : Type} [DecidableEq κ] (a b : List (κ × α))
    (k : κ) (ha : jsGet a k = none) (hb : jsGet b k = none) :
    jsGet (a ++ b) k = none := by
  rw [jsGet_append, ha]
  exact hb

theorem jsSet_append_of_absent (a b : List (String × PVal)) (k : String)
    (v : PVal) (ha : jsGet a k = none) :
    jsSet (a ++ b) k v = a ++ jsSet b k v := by
  induction a with
  | nil => simp
  | cons e rest ih =>
    by_cases he : e.1 = k
    · simp [jsGet, he] at ha
    · simp [jsGet, he] at ha
      simp [jsSet, he, ih ha]


theorem updateTaskBase_eq (u : UpdateTaskArgs) :
    updateTaskBase u =
      updateTaskBase5 u ++ (u.progress.elim [] (fun v => [("progress", PVal.i v)])) := by
  simp [updateTaskBase, updateTaskBase5]

theorem updateTaskBase5_absent (u : UpdateTaskArgs) (k : String)
    (h1 : "title" ≠ k) (h2 : "description" ≠ k) (h3 : "status" ≠ k)
    (h4 : "priority" ≠ k) (h5 : "assignee" ≠ k) :
    jsGet (updateTaskBase5 u) k = none := by
  unfold updateTaskBase5
  simp only [List.append_assoc]
  exact jsGet_append_none _ _ _ (jsGet_optSingle _ _ _ _ h1)
    (jsGet_append_none _ _ _ (jsGet_optSingle _ _ _ _ h2)
      (jsGet_append_none _ _ _ (jsGet_optSingle _ _ _ _ h3)
        (jsGet_append_none _ _ _ (jsGet_optSingle _ _ _ _ h4)
          (jsGet_optSingle _ _ _ _ h5))))

theorem updateTaskBase_absent (u : UpdateTaskArgs) (k : String)
    (h1 : "title" ≠ k) (h2 : "description" ≠ k) (h3 : "status" ≠ k)
    (h4 : "priority" ≠ k) (h5 : "assignee" ≠ k) (h6 : "progress" ≠ k) :
    jsGet (updateTaskBase u) k = none := by
  rw [updateTaskBase_eq]
  exact jsGet_append_none _ _ _ (updateTaskBase5_absent u k h1 h2 h3 h4 h5)
    (jsGet_optSingle _ _ _ _ h6)

theorem jsGet_reverse_none (l : List (String × PVal)) (k : String)
    (h : jsGet l k = none) : jsGet l.reverse k = none := by
  induction l with
  | nil => simp [jsGet]
  | cons e rest ih =>
    by_cases he : e.1 = k
    · simp [jsGet, he] at h
    · simp [jsGet, he] at h
      rw [List.reverse_cons]
      exact jsGet_append_none _ _ _ (ih h) (by simp [jsGet, he])

theorem updateTaskData_completed_lookups (u : UpdateTaskArgs) (jsNow : Nat)
    (hst : u.status = some "completed") :
    jsGet (updateTaskData u jsNow).reverse "progress" = some (.i 100) ∧
    jsGet (updateTaskData u jsNow).reverse "completed_at" = some (.jsTime jsNow) ∧
    jsGet (updateTaskData u jsNow).reverse "id" = none := by
  have hca : jsGet (updateTaskBase u ++ [("updated_at", PVal.jsTime jsNow)])
      "completed_at" = none :=
    jsGet_append_none _ _ _
      (updateTaskBase_absent u _ (by decide) (by decide) (by decide) (by decide)
        (by decide) (by decide))
      (by simp [jsGet])
  have hdata : updateTaskData u jsNow =
      jsSet (updateTaskBase u ++
        [("updated_at", PVal.jsTime jsNow), ("completed_at", PVal.jsTime jsNow)])
        "progress" (PVal.i 100) := by
    simp only [updateTaskData, hst, if_pos]
    rw [jsSet_of_absent _ _ _ hca]
    simp
  have hid : jsGet (updateTaskData u jsNow).reverse "id" = none := by
    refine jsGet_reverse_none _ _ ?_
    rw [hdata, jsGet_jsSet_other _ _ _ _ (by decide)]
    exact jsGet_append_none _ _ _
      (updateTaskBase_absent u _ (by decide) (by decide) (by decide) (by decide)
        (by decide) (by decide))
      (by simp [jsGet])
  refine ⟨?_, ?_, hid⟩ <;> rw [hdata]
  · cases hp : u.progress with
    | none =>
      have hpabs : jsGet (updateTaskBase u ++
          [("updated_at", PVal.jsTime jsNow), ("completed_at", PVal.jsTime jsNow)])
          "progress" = none :=
        jsGet_append_none _ _ _
          (by
            rw [updateTaskBase_eq, hp]
            simpa using updateTaskBase5_absent u "progress" (by decide) (by decide)
              (by decide) (by decide) (by decide))
          (by simp [jsGet])
      rw [jsSet_of_absent _ _ _ hpabs, List.reverse_append]
      simp [jsGet]
    | some p =>
      have hb5 : jsGet (updateTaskBase5 u) "progress" = none :=
        updateTaskBase5_absent u "progress" (by decide) (by decide) (by decide)
          (by decide) (by decide)
      rw [updateTaskBase_eq, hp]
      simp only [Option.elim, List.append_assoc]
      rw [jsSet_append_of_absent _ _ _ _ hb5]
      simp only [List.singleton_append, jsSet, if_pos rfl, List.reverse_append]
      simp [jsGet]
  · cases hp : u.progress with
    | none =>
      have hpabs : jsGet (updateTaskBase u ++
          [("updated_at", PVal.jsTime jsNow), ("completed_at", PVal.jsTime jsNow)])
          "progress" = none :=
        jsGet_append_none _ _ _
          (by
            rw [updateTaskBase_eq, hp]
            simpa using updateTaskBase5_absent u "progress" (by decide) (by decide)
              (by decide) (by decide) (by decide))
          (by simp [jsGet])
      rw [jsSet_of_absent _ _ _ hpabs, List.reverse_append]
      simp [jsGet, List.reverse_append]
    | some p =>
      have hb5 : jsGet (updateTaskBase5 u) "progress" = none :=
        updateTaskBase5_absent u "progress" (by decide) (by decide) (by decide)
          (by decide) (by decide)
      rw [updateTaskBase_eq, hp]
      simp only [Option.elim, List.append_assoc]
      rw [jsSet_append_of_absent _ _ _ _ hb5]
      simp only [List.singleton_append, jsSet, if_pos rfl, List.reverse_append]
      simp [jsGet, List.reverse_append]

theorem nodeMatches_after_update (n : GraphNode) (label id : String)
    (upd : List (String × PVal)) (dbNow : Nat)
    (hid : jsGet upd.reverse "id" = none)
    (h : nodeMatches n label id = true) :
    nodeMatches
      ⟨n.label, jsSet (setProps n.props upd) "updated_at" (.dbTime dbNow)⟩
      label id = true := by
  simp only [nodeMatches, decide_eq_true_eq] at h ⊢
  refine ⟨h.1, ?_⟩
  show jsGet (jsSet (setProps n.props upd) "updated_at" (PVal.dbTime dbNow)) "id" =
    some (PVal.s id)
  rw [jsGet_jsSet_other _ _ _ _ (by decide), jsGet_setProps, hid]
  exact h.2

theorem find?_map_update (l : List GraphNode) (label id : String)
    (f : GraphNode → GraphNode)
    (hpres : ∀ m, nodeMatches m label id = true →
      nodeMatches (f m) label id = true)
    (n : GraphNode) (h : l.find? (fun m => nodeMatches m label id) = some n) :
    (l.map (fun m => if nodeMatches m label id then f m else m)).find?
      (fun m => nodeMatches m label id) = some (f n) := by
  induction l with
  | nil => simp [List.find?] at h
  | cons m rest ih =>
    by_cases hm : nodeMatches m label id = true
    · simp only [List.find?_cons, hm] at h
      simp only [Option.some.injEq] at h
      subst h
      simp only [List.map_cons, if_pos hm, List.find?_cons, hpres m hm]
    · have hm2 : nodeMatches m label id = false := by
        simpa using hm
      simp only [List.find?_cons, hm2] at h
      simp only [List.map_cons, hm2, Bool.false_eq_true, if_false,
        List.find?_cons]
      exact ih h

theorem getEntityById_updateEntity (g : GraphStore) (label id : String)
    (upd : List (String × PVal)) (dbNow : Nat)
    (hid : jsGet upd.reverse "id" = none) (n : GraphNode)
    (h : g.nodes.find? (fun m => nodeMatches m label id) = some n) :
    getEntityById (updateEntity g label id upd dbNow).1 label id =
      some ⟨n.label, jsSet (setProps n.props upd) "updated_at" (.dbTime dbNow)⟩ := by
  exact find?_map_update g.nodes label id
    (fun m => ⟨m.label, jsSet (setProps m.props upd) "updated_at" (.dbTime dbNow)⟩)
    (fun m hm => nodeMatches_after_update m label id upd dbNow hid hm) n h


/-- C7 counterexample: completing the task via `update_task` at handler
instant 2 and store instant 3 persists `completed_at` as the handler's
ISO string (`jsTime 2`) but `updated_at` as the store's `datetime()`
(`dbTime 3`) — `updateEntity` appends `e.updated_at = datetime()` after
the handler's values — so the claimed equality
`completed_at = new updated_at` fails. -/
theorem C7_completed_at_not_updated_at_counterexample :
    (updateTaskHandler c7Store "t1" ⟨none, none, some "completed", none, none, none⟩
      2 3).2 =
      UpdateTaskResult.ok
        [("id", .s "t1"), ("status", .s "completed"), ("progress", .i 100),
         ("created_at", .jsTime 0), ("updated_at", .dbTime 3),
         ("completed_at", .jsTime 2)] ∧
    some (PVal.jsTime 2) ≠ some (PVal.dbTime 3) := by
  exact ⟨by decide, by decide⟩

/-- C7 (amended): every completion path (`update_task` with
`status = "completed"`, and `complete_task`) persists `progress = 100`
and sets `completed_at` to the handler's timestamp; but the persisted
`updated_at` is overwritten by the store's `datetime()` at write time,
so `completed_at` is not equal to the new `updated_at` — it is ≤ it as
an instant (and ≥ the prior `updated_at` under monotone clocks). -/
theorem C7_completed_task_timestamps (g : GraphStore) (taskId : String)
    (u : UpdateTaskArgs) (res : Option String) (jsNow dbNow t0 : Nat)
    (n : GraphNode)
    (hfind : g.nodes.find? (fun m => nodeMatches m "Task" taskId) = some n)
    (hst : u.status = some "completed")
    (hprior : (jsGet n.props "updated_at").bind PVal.reading = some t0)
    (hm1 : t0 ≤ jsNow) (hm2 : jsNow ≤ dbNow) :
    (∃ props, (updateTaskHandler g taskId u jsNow dbNow).2 =
        UpdateTaskResult.ok props ∧
      jsGet props "progress" = some (.i 100) ∧
      jsGet props "completed_at" = some (.jsTime jsNow) ∧
      jsGet props "updated_at" = some (.dbTime dbNow) ∧
      jsGet props "completed_at" ≠ jsGet props "updated_at" ∧
      (jsGet props "completed_at").bind PVal.reading = some jsNow ∧
      t0 ≤ jsNow ∧ jsNow ≤ dbNow) ∧
    ((completeTaskHandler g taskId res jsNow dbNow).2 = CompleteTaskResult.ok ∧
     ∃ n2, getEntityById (completeTaskHandler g taskId res jsNow dbNow).1
         "Task" taskId = some n2 ∧
       jsGet n2.props "progress" = some (.i 100) ∧
       jsGet n2.props "completed_at" = some (.jsTime jsNow) ∧
       jsGet n2.props "updated_at" = some (.dbTime dbNow) ∧
       jsGet n2.props "completed_at" ≠ jsGet n2.props "updated_at") := by
  obtain ⟨hp, hc, hid⟩ := updateTaskData_completed_lookups u jsNow hst
  constructor
  · have hr2 : (updateEntity g "Task" taskId (updateTaskData u jsNow) dbNow).2 =
        some (jsSet (setProps n.props (updateTaskData u jsNow)) "updated_at"
          (.dbTime dbNow)) := by
      show (g.nodes.find? _).map _ = _
      rw [hfind]
      rfl
    refine ⟨jsSet (setProps n.props (updateTaskData u jsNow)) "updated_at"
      (.dbTime dbNow), ?_, ?_, ?_, ?_, ?_, ?_, hm1, hm2⟩
    · show (match (updateEntity g "Task" taskId (updateTaskData u jsNow) dbNow).2
          with
        | none => (g, UpdateTaskResult.notFound)
        | some props =>
          ((updateEntity g "Task" taskId (updateTaskData u jsNow) dbNow).1,
            UpdateTaskResult.ok props)).2 = _
      rw [hr2]
    · rw [jsGet_jsSet_other _ _ _ _ (by decide), jsGet_setProps, hp]
    · rw [jsGet_jsSet_other _ _ _ _ (by decide), jsGet_setProps, hc]
    · exact jsGet_jsSet_self _ _ _
    · rw [jsGet_jsSet_other _ _ _ _ (by decide), jsGet_setProps, hc,
        jsGet_jsSet_self]
      simp
    · rw [jsGet_jsSet_other _ _ _ _ (by decide), jsGet_setProps, hc]
      rfl
  · have hupd := getEntityById_updateEntity g "Task" taskId
      (completeTaskData res jsNow) dbNow (by
        cases res <;> simp [completeTaskData, jsGet, Option.elim]) n hfind
    have hr2 : (updateEntity g "Task" taskId (completeTaskData res jsNow)
        dbNow).2 =
        some (jsSet (setProps n.props (completeTaskData res jsNow))
          "updated_at" (.dbTime dbNow)) := by
      show (g.nodes.find? _).map _ = _
      rw [hfind]
      rfl
    have hhandler1 : (completeTaskHandler g taskId res jsNow dbNow).1 =
        (updateEntity g "Task" taskId (completeTaskData res jsNow) dbNow).1 := by
      show (match (updateEntity g "Task" taskId (completeTaskData res jsNow)
          dbNow).2 with
        | none => (g, CompleteTaskResult.notFound)
        | some _ => ((updateEntity g "Task" taskId (completeTaskData res jsNow)
            dbNow).1, CompleteTaskResult.ok)).1 = _
      rw [hr2]
    have hhandler2 : (completeTaskHandler g taskId res jsNow dbNow).2 =
        CompleteTaskResult.ok := by
      show (match (updateEntity g "Task" taskId (completeTaskData res jsNow)
          dbNow).2 with
        | none => (g, CompleteTaskResult.notFound)
        | some _ => ((updateEntity g "Task" taskId (completeTaskData res jsNow)
            dbNow).1, CompleteTaskResult.ok)).2 = _
      rw [hr2]
    refine ⟨hhandler2, ⟨n.label, jsSet (setProps n.props
      (completeTaskData res jsNow)) "updated_at" (.dbTime dbNow)⟩,
      ?_, ?_, ?_, ?_, ?_⟩
    · rw [hhandler1]
      exact hupd
    · rw [jsGet_jsSet_other _ _ _ _ (by decide), jsGet_setProps]
      cases res <;> rfl
    · rw [jsGet_jsSet_other _ _ _ _ (by decide), jsGet_setProps]
      cases res <;> rfl
    · exact jsGet_jsSet_self _ _ _
    · rw [jsGet_jsSet_other _ _ _ _ (by decide), jsGet_setProps,
        jsGet_jsSet_self]
      cases res <;> simp [completeTaskData, jsGet]

/-- C7 witness: the amended statement at the counterexample's store. -/
theorem C7_completed_task_timestamps_witness :
    c7Store.nodes.find? (fun m => nodeMatches m "Task" "t1") =
      some ⟨"Task",
        [("id", .s "t1"), ("status", .s "pending"), ("progress", .i 10),
         ("created_at", .jsTime 0), ("updated_at", .dbTime 1)]⟩ ∧
    ∃ props, (updateTaskHandler c7Store "t1"
        ⟨none, none, some "completed", none, none, none⟩ 2 3).2 =
        UpdateTaskResult.ok props ∧
      jsGet props "progress" = some (.i 100) ∧
      jsGet props "completed_at" = some (.jsTime 2) ∧
      jsGet props "updated_at" = some (.dbTime 3) ∧
      jsGet props "completed_at" ≠ jsGet props "updated_at" ∧
      (jsGet props "completed_at").bind PVal.reading = some 2 ∧
      1 ≤ 2 ∧ 2 ≤ 3 :=
  ⟨by decide,
   (C7_completed_task_timestamps c7Store "t1"
      ⟨none, none, some "completed", none, none, none⟩ none 2 3 1
      ⟨"Task",
       [("id", .s "t1"), ("status", .s "pending"), ("progress", .i 10),
        ("created_at", .jsTime 0), ("updated_at", .dbTime 1)]⟩
      (by decide) rfl (by decide) (by decide) (by decide)).1⟩

